import Mathlib

/-
Verification of gh_awesome_sorter.py (GitHub awesome list sorter).

The script extracts GitHub repository full names from an awesome-list README,
deduplicates them, scrapes a star count for each repository (with a
sleep-60-and-retry loop on HTTP 429), and prints the repositories sorted by
stars, descending.  Network interactions are modelled by outcome oracles:
a fetch oracle maps an attempt number to the outcome the remote service
produces for that attempt, so the control flow of the Python code (retry,
skip, abort) is reproduced exactly over those outcomes.
-/

/-- Scraped repository data: full name and star count (dataclass RepoScraped). -/
structure RepoScraped where
  full_name : String
  stars : Nat
  deriving DecidableEq, Repr

/-- URL of the repository page, https://github.com/fullname (get_repo_html_url). -/
def get_repo_html_url (fullname : String) : String :=
  "https://github.com/" ++ fullname

/-- Property RepoScraped.url of the dataclass. -/
def RepoScraped.url (r : RepoScraped) : String :=
  get_repo_html_url r.full_name

/-
Identifier extractor.  The source calls
  findall(r"\(https://github\.com/([^\s/]+?/[^\s/#]+)/?#?.*/?\)", text).
We compile this one fixed pattern into an executable backtracking matcher
with Python regex semantics: the first alternative tried by the engine wins,
a lazy quantifier tries the shortest extension first, a greedy quantifier the
longest, and findall scans left to right restarting after each match.
-/

/-- Python whitespace class backslash-s restricted to the ASCII range. -/
def isSpaceChar (c : Char) : Bool :=
  c = ' ' || c = '\t' || c = '\n' || c = '\r' || c = '\x0b' || c = '\x0c'

/-- Character class of the first capture segment: not whitespace, not a slash. -/
def classA (c : Char) : Bool :=
  !isSpaceChar c && c != '/'

/-- Character class of the second capture segment: not whitespace, slash or hash. -/
def classB (c : Char) : Bool :=
  !isSpaceChar c && c != '/' && c != '#'

/-- Match the pattern tail slash-opt close-paren at the head of the input,
returning the rest of the input after the close paren. -/
def tailEnd : List Char → Option (List Char)
  | '/' :: ')' :: r => some r
  | ')' :: r => some r
  | _ => none

/-- Match dot-star (greedy, no newline) followed by slash-opt close-paren. -/
def dotstarTail : List Char → Option (List Char)
  | [] => tailEnd []
  | c :: u =>
    if c != '\n' then
      match dotstarTail u with
      | some r => some r
      | none => tailEnd (c :: u)
    else tailEnd (c :: u)

/-- Match hash-opt (greedy) then the dot-star tail. -/
def hashOpt : List Char → Option (List Char)
  | '#' :: u =>
    (match dotstarTail u with
     | some r => some r
     | none => dotstarTail ('#' :: u))
  | t => dotstarTail t

/-- Match slash-opt (greedy) then hash-opt and the dot-star tail: the whole
uncaptured tail of the pattern after the capture group. -/
def slashOpt : List Char → Option (List Char)
  | '/' :: u =>
    (match hashOpt u with
     | some r => some r
     | none => hashOpt ('/' :: u))
  | t => hashOpt t

/-- Greedy star over classB characters followed by the pattern tail; returns
the characters consumed by the star and the rest after the whole tail. -/
def starB : List Char → Option (List Char × List Char)
  | [] => (slashOpt []).map (fun r => ([], r))
  | c :: u =>
    if classB c then
      match starB u with
      | some (bs, r) => some (c :: bs, r)
      | none => (slashOpt (c :: u)).map (fun r => ([], r))
    else (slashOpt (c :: u)).map (fun r => ([], r))

/-- Greedy plus over classB characters followed by the pattern tail. -/
def plusB : List Char → Option (List Char × List Char)
  | c :: u => if classB c then (starB u).map (fun p => (c :: p.1, p.2)) else none
  | [] => none

/-- Continuation after the lazy classA segment: a literal slash then the
classB plus and the pattern tail. -/
def contA : List Char → Option (List Char × List Char)
  | '/' :: u => plusB u
  | _ => none

/-- Lazy star over classA characters: at each position first try the
continuation, only on failure consume one more classA character.  Returns the
classA star characters, the classB characters and the rest. -/
def lazyStarA : List Char → Option (List Char × List Char × List Char)
  | [] =>
    (match contA [] with
     | some (bs, r) => some ([], bs, r)
     | none => none)
  | c :: u =>
    match contA (c :: u) with
    | some (bs, r) => some ([], bs, r)
    | none =>
      if classA c then
        (lazyStarA u).map (fun p => (c :: p.1, p.2.1, p.2.2))
      else none

/-- Lazy plus over classA characters, then slash, classB plus and tail;
returns the captured group text and the rest of the input. -/
def plusA : List Char → Option (String × List Char)
  | c :: u =>
    if classA c then
      (lazyStarA u).map (fun p => (String.mk ((c :: p.1) ++ '/' :: p.2.1), p.2.2))
    else none
  | [] => none

/-- Literal head of the pattern: open paren then the GitHub URL base. -/
def linkLiteral : List Char :=
  '(' :: String.toList "https://github.com/"

/-- Try to match the whole pattern at the head of the input. -/
def matchAt (t : List Char) : Option (String × List Char) :=
  if linkLiteral.isPrefixOf t then plusA (t.drop linkLiteral.length)
  else none

/-- Scan of findall: try the pattern at each position, left to right,
restarting after the end of each match.  Fuel bounds the number of steps;
every step consumes at least one character, so the input length suffices. -/
def scanText : Nat → List Char → List String
  | 0, _ => []
  | _ + 1, [] => []
  | fuel + 1, c :: u =>
    match matchAt (c :: u) with
    | some (g, r) => g :: scanText fuel r
    | none => scanText fuel u

/-- Extract GitHub hyperlink repo full names from the text (get_repo_fullnames). -/
def get_repo_fullnames (text : String) : List String :=
  scanText (text.length + 1) text.toList

/-- Deduplication step of the pipeline: the source computes
list(set(repo_fullnames)).  A Python set holds each element once and promises
no order; we model it by List.dedup, which also keeps each element once.
No claim depends on the order of the output. -/
def dedup_fullnames (l : List String) : List String :=
  l.dedup

/-- Ranking step: sorted(repos, key=lambda r: r.stars, reverse=True).
Python sorted is stable and reverse=True inverts the key comparison only, so
this is the stable sort by star count descending. -/
def sortReposByStars (l : List RepoScraped) : List RepoScraped :=
  l.mergeSort (fun a b => decide (b.stars ≤ a.stars))

/-- Lexical order on character lists by code point, the order Python uses
to compare strings. -/
def lexLeChars : List Char → List Char → Bool
  | [], _ => true
  | _ :: _, [] => false
  | a :: as, b :: bs =>
    if a.toNat < b.toNat then true
    else if b.toNat < a.toNat then false
    else lexLeChars as bs

/-- Lexical order on strings by code point. -/
def lexLeString (a b : String) : Bool :=
  lexLeChars a.toList b.toList

/-- Spec-side order of the Ranker claim (corrected claim C3 refers to it):
metric descending with ties broken by identifier ascending.  This definition
follows the spec words, for comparison with the code order. -/
def specTieOrdered : List RepoScraped → Bool
  | [] => true
  | a :: t =>
    (match t with
     | [] => true
     | b :: _ =>
       decide (b.stars < a.stars) ||
         (decide (a.stars = b.stars) && lexLeString a.full_name b.full_name)) &&
    specTieOrdered t

/-- Input text of the spec scenario for the extractor, as the spec writes it. -/
def claimInputText : String :=
  "see (https://host/a/b) and (https://host/a/b) again and (https://host/c/d)"

/-- Input text of the spec scenario with the host the code actually matches. -/
def githubInputText : String :=
  "see (https://github.com/a/b) and (https://github.com/a/b) again and (https://github.com/c/d)"

/-
Synchronous scrape-based fetching (the path the pipeline uses).
A fetch oracle gives, for each attempt number, the outcome the remote service
produces for that attempt on a given repository page.
-/

/-- Outcome of one HTTP attempt in the synchronous path: a parseable success
page with a star count, an HTTP error status raised by raise_for_status, a
parse failure after a good response (stars element missing or not a number),
or a non-HTTP request failure (connection error and the like). -/
inductive FetchOutcome where
  | ok (stars : Nat)
  | httpError (status : Nat)
  | parseError
  | netError
  deriving DecidableEq, Repr

/-- Error carried by an uncaught Python exception in the synchronous path. -/
inductive FetchError where
  | http (status : Nat)
  | parse
  | net
  deriving DecidableEq, Repr

/-- Processing of one non-429 attempt in get_repo_scraped: a good response is
parsed into a RepoScraped with the repo full name, any other outcome raises. -/
def handle_response (full_name : String) : FetchOutcome → Except FetchError RepoScraped
  | .ok stars => .ok ⟨full_name, stars⟩
  | .httpError status => .error (.http status)
  | .parseError => .error .parse
  | .netError => .error .net

/-- The function get_repo_scraped: on HTTP 429 sleep 60 seconds and retry the
same request (recursively, with no retry cap); any other outcome is handled
once.  The result carries the total seconds slept; fuel bounds the recursion
depth, none meaning the Python code would still be retrying. -/
def get_repo_scraped (resp : Nat → FetchOutcome) (full_name : String) :
    Nat → Nat → Option (Except FetchError RepoScraped × Nat)
  | 0, _ => none
  | fuel + 1, attempt =>
    if resp attempt = .httpError 429 then
      (get_repo_scraped resp full_name fuel (attempt + 1)).map (fun p => (p.1, p.2 + 60))
    else
      some (handle_response full_name (resp attempt), 0)

/-- The generator get_repos_scraped, fully consumed: for each full name fetch
through get_repo_scraped; an HTTPError with status 404 is caught and the name
skipped (continue); any other exception propagates and ends the whole
iteration.  The per-name oracle maps a full name and attempt number to an
outcome. -/
def get_repos_scraped (resp : String → Nat → FetchOutcome) (fuel : Nat) :
    List String → Option (Except FetchError (List RepoScraped))
  | [] => some (.ok [])
  | n :: rest =>
    match get_repo_scraped (resp n) n fuel 0 with
    | none => none
    | some (.ok r, _) =>
      (match get_repos_scraped resp fuel rest with
       | none => none
       | some (.ok rs) => some (.ok (r :: rs))
       | some (.error e) => some (.error e))
    | some (.error e, _) =>
      if e = .http 404 then get_repos_scraped resp fuel rest
      else some (.error e)

/-- Truth of: the fetch of this name ends in an HTTPError 404, the one case
the generator loop catches and skips. -/
def skipsNotFound (resp : String → Nat → FetchOutcome) (fuel : Nat) (n : String) : Bool :=
  match get_repo_scraped (resp n) n fuel 0 with
  | some (.error e, _) => e = FetchError.http 404
  | _ => false

/-
Asynchronous fan-out fetching (get_repo_async / get_repos_async).  This
variant makes a single attempt per repository inside one coroutine.
-/

/-- Outcome of the single attempt of one async fetch task. -/
inductive AsyncOutcome where
  | body (stars : Nat)
  | clientError (status : Nat)
  | timeout
  | parseFailure
  deriving DecidableEq, Repr

/-- Error carried by an exception escaping one async fetch task. -/
inductive AsyncError where
  | client (status : Nat)
  | parse
  deriving DecidableEq, Repr

/-- The coroutine get_repo_async: a timeout and a 404 response both fold into
a zero-star result; a 429 response falls through the pass statement and is
re-raised like every other client error; a parse failure propagates. -/
def get_repo_async (full_name : String) : AsyncOutcome → Except AsyncError RepoScraped
  | .body stars => .ok ⟨full_name, stars⟩
  | .timeout => .ok ⟨full_name, 0⟩
  | .clientError status =>
    if status = 404 then .ok ⟨full_name, 0⟩ else .error (.client status)
  | .parseFailure => .error .parse

/-- The gather of get_repos_async: results in input order when every task
returns, otherwise the propagated task exception. -/
def get_repos_async (oracle : String → AsyncOutcome) :
    List String → Except AsyncError (List RepoScraped)
  | [] => .ok []
  | n :: rest =>
    match get_repo_async n (oracle n) with
    | .error e => .error e
    | .ok r =>
      match get_repos_async oracle rest with
      | .error e => .error e
      | .ok rs => .ok (r :: rs)

/-
Pipeline: get_repo (API fetch of the awesome repo), get_readme, extraction,
deduplication, scraping, sorting, and main with its try/except.
-/

/-- Dataclass Repo built from the GitHub API response. -/
structure Repo where
  html_url : String
  full_name : String
  description : String
  homepage : String
  stars : Nat
  default_branch : String
  deriving DecidableEq, Repr

/-- Base URL constants of the script. -/
def GITHUB_API_BASE_URL : String := "https://api.github.com/repos/"

/-- Base URL for raw file contents. -/
def GITHUB_RAW_CONTENT_BASE_URL : String := "https://raw.githubusercontent.com/"

/-- Outcome of the API request issued by get_repo. -/
inductive ApiOutcome where
  | ok (repo : Repo)
  | httpError (status : Nat)
  | otherFailure
  deriving Repr

/-- Outcome of the raw README request issued by get_readme. -/
inductive ReadmeOutcome where
  | ok (text : String)
  | httpError (status : Nat)
  | otherFailure
  deriving Repr

/-- Exception classes that can escape get_sorted_awesome_list_repos. -/
inductive SorterError where
  | repoNotFound (full_name : String)
  | readmeNotFound
  | apiHttp (status : Nat)
  | apiOther
  | fetchFatal (e : FetchError)
  deriving DecidableEq, Repr

/-- The function get_repo: fetch repository details from the GitHub API; an
HTTPError with status 404 becomes RepositoryNotFoundError, every other
exception is re-raised. -/
def get_repo (api : String → ApiOutcome) (fullname : String) : Except SorterError Repo :=
  match api (GITHUB_API_BASE_URL ++ fullname) with
  | .ok r => .ok r
  | .httpError status =>
    if status = 404 then .error (.repoNotFound fullname) else .error (.apiHttp status)
  | .otherFailure => .error .apiOther

/-- URL of the raw README file formed by get_readme. -/
def readme_url (repo : Repo) : String :=
  GITHUB_RAW_CONTENT_BASE_URL ++ repo.full_name ++ "/" ++ repo.default_branch ++ "/README.md"

/-- The function get_readme: an HTTPError with status 404 becomes
AwesomeReadmeNotFound, every other exception is re-raised. -/
def get_readme (readme : String → ReadmeOutcome) (repo : Repo) : Except SorterError String :=
  match readme (readme_url repo) with
  | .ok text => .ok text
  | .httpError status =>
    if status = 404 then .error .readmeNotFound else .error (.apiHttp status)
  | .otherFailure => .error .apiOther

/-- Oracles for every remote interaction of one run of the pipeline. -/
structure SorterWorld where
  api : String → ApiOutcome
  readme : String → ReadmeOutcome
  scrape : String → Nat → FetchOutcome

/-- The function get_sorted_awesome_list_repos: strip the GitHub URL base
from the argument if present, fetch the repo object and its README, extract
and deduplicate full names, truncate to process_count when given, scrape all
of them and sort by stars descending. -/
def get_sorted_awesome_list_repos (w : SorterWorld) (repo : String)
    (process_count : Option Nat) (fuel : Nat) :
    Option (Except SorterError (List RepoScraped)) :=
  let repo_fullname :=
    if ("https://github.com/".toList).isPrefixOf repo.toList
    then String.mk (repo.toList.drop 19)
    else repo
  match get_repo w.api repo_fullname with
  | .error e => some (.error e)
  | .ok repo_object =>
    match get_readme w.readme repo_object with
    | .error e => some (.error e)
    | .ok readme_text =>
      let repo_fullnames := dedup_fullnames (get_repo_fullnames readme_text)
      let selected :=
        match process_count with
        | none => repo_fullnames
        | some c => repo_fullnames.take c
      match get_repos_scraped w.scrape fuel selected with
      | none => none
      | some (.error e) => some (.error (.fetchFatal e))
      | some (.ok rs) => some (.ok (sortReposByStars rs))

/-- Observable outcome of one invocation: the process exit code and the
repository entries printed (top count of the sorted list). -/
structure MainOutput where
  exit_code : Nat
  printed : List RepoScraped
  deriving DecidableEq, Repr

/-- The function main (modelled as main_model, Lean reserves the name main): print the top count entries and return (exit code 0);
RepositoryNotFoundError and AwesomeReadmeNotFound are caught, print an
apology and return normally (exit code 0); any other exception escapes and
the interpreter exits with code 1. -/
def main_model (w : SorterWorld) (repo : String) (count : Nat)
    (process_count : Option Nat) (fuel : Nat) : Option MainOutput :=
  match get_sorted_awesome_list_repos w repo process_count fuel with
  | none => none
  | some (.ok repos) => some ⟨0, repos.take count⟩
  | some (.error (.repoNotFound _)) => some ⟨0, []⟩
  | some (.error .readmeNotFound) => some ⟨0, []⟩
  | some (.error _) => some ⟨1, []⟩

/-- Truth of: this pipeline result is caught by main or is a success, the
results on which the process exits with code 0. -/
def caughtOrOk : Except SorterError (List RepoScraped) → Bool
  | .ok _ => true
  | .error (.repoNotFound _) => true
  | .error .readmeNotFound => true
  | .error _ => false

/-
Concrete oracles and worlds used by counterexamples and witnesses.
-/

/-- Oracle: rate-limited on the first two attempts, then success with 7 stars. -/
def respTwice429 : Nat → FetchOutcome :=
  fun k => if k < 2 then .httpError 429 else .ok 7

/-- Oracle: every repository page answers 404. -/
def respNotFound : String → Nat → FetchOutcome :=
  fun _ _ => .httpError 404

/-- Oracle: the page of x/y answers 404, every other page succeeds with 5 stars. -/
def respMix : String → Nat → FetchOutcome :=
  fun n _ => if n = "x/y" then .httpError 404 else .ok 5

/-- Oracle: the page of x/y answers 500, every other page succeeds with 3 stars. -/
def resp500 : String → Nat → FetchOutcome :=
  fun n _ => if n = "x/y" then .httpError 500 else .ok 3

/-- Async oracle: the task of x/y times out, every other task reads 4 stars. -/
def asyncOracle1 : String → AsyncOutcome :=
  fun n => if n = "x/y" then .timeout else .body 4

/-- Repo object used by the concrete worlds. -/
def exampleRepo : Repo :=
  ⟨"https://github.com/user/repo", "user/repo", "", "", 1, "main"⟩

/-- World where the API request for the awesome repo itself answers 404. -/
def w404 : SorterWorld :=
  ⟨fun _ => .httpError 404, fun _ => .httpError 404, fun _ _ => .ok 0⟩

/-- World where the README request answers 404. -/
def wReadme404 : SorterWorld :=
  ⟨fun _ => .ok exampleRepo, fun _ => .httpError 404, fun _ _ => .ok 0⟩

/-- World where every scrape answers 500: a fatal harvest error. -/
def wFatal : SorterWorld :=
  ⟨fun _ => .ok exampleRepo, fun _ => .ok githubInputText, fun _ _ => .httpError 500⟩

/-
Theorems.
-/

/-- Claim C7: for every sequence of identifiers, the deduplication step
outputs no repeated elements and its set of elements equals the set of
elements of the input sequence. -/
theorem dedup_no_repeats_same_elements (l : List String) :
    (dedup_fullnames l).Nodup ∧ ∀ x : String, x ∈ dedup_fullnames l ↔ x ∈ l :=
  ⟨l.nodup_dedup, fun _ => List.mem_dedup⟩

/-- Claim C10: in the concurrent fan-out variant a 429 response triggers no
backoff or retry; the exception falls through the pass statement and is
re-raised, so a single rate-limit signal fails that fetch task. -/
theorem async_rate_limit_fails_task (full_name : String) :
    get_repo_async full_name (.clientError 429) = .error (.client 429) := rfl

/-- Claim C4 counterexample: on the scenario text as the claim writes it the
extractor returns the empty list, not the three identifiers the claim
states, because the pattern matches the literal GitHub host only. -/
theorem extractor_scenario_counterexample :
    get_repo_fullnames claimInputText = [] ∧
    get_repo_fullnames claimInputText ≠ ["a/b", "a/b", "c/d"] := by
  constructor
  · rfl
  · intro h
    rw [show get_repo_fullnames claimInputText = [] from rfl] at h
    simp at h

/-- Claim C4 (amended): on the scenario text with the host the code matches,
the single greedy match spans all three links, the captured identifier keeps
a stray close paren, and deduplication keeps that one string. -/
theorem extractor_scenario_actual :
    get_repo_fullnames githubInputText = ["a/b)"] ∧
    dedup_fullnames (get_repo_fullnames githubInputText) = ["a/b)"] :=
  ⟨rfl, rfl⟩

/-- Claim C3 counterexample: on two entries with equal stars the code sort
keeps input order (Python sorted is stable), so identifiers stay in the
order b/b, a/a, which is not ascending; the spec tie rule rejects it. -/
theorem ranker_tie_counterexample :
    sortReposByStars [⟨"b/b", 5⟩, ⟨"a/a", 5⟩] = [⟨"b/b", 5⟩, ⟨"a/a", 5⟩] ∧
    specTieOrdered (sortReposByStars [⟨"b/b", 5⟩, ⟨"a/a", 5⟩]) = false := by
  have hs : sortReposByStars [⟨"b/b", 5⟩, ⟨"a/a", 5⟩] = [⟨"b/b", 5⟩, ⟨"a/a", 5⟩] :=
    List.mergeSort_of_sorted (by decide)
  refine ⟨hs, ?_⟩
  rw [hs]
  decide

/-- Claim C3 (amended): the Ranker output is sorted non-increasing by metric
and is a permutation of the input; entries with equal metrics keep their
input order (stable sort), with no lexical tie-break. -/
theorem ranker_sorted_desc_stable (l : List RepoScraped) :
    List.Pairwise (fun a b => b.stars ≤ a.stars) (sortReposByStars l) ∧
    (sortReposByStars l).Perm l ∧
    ∀ a b : RepoScraped, a.stars = b.stars →
      [a, b].Sublist l → [a, b].Sublist (sortReposByStars l) := by
  have htrans : ∀ a b c : RepoScraped,
      decide (b.stars ≤ a.stars) → decide (c.stars ≤ b.stars) →
      decide (c.stars ≤ a.stars) := by
    intro a b c hab hbc
    simp only [decide_eq_true_eq] at *
    omega
  have htotal : ∀ a b : RepoScraped,
      (decide (b.stars ≤ a.stars) || decide (a.stars ≤ b.stars)) = true := by
    intro a b
    simp only [Bool.or_eq_true, decide_eq_true_eq]
    omega
  refine ⟨?_, ?_, ?_⟩
  · have hp := List.sorted_mergeSort htrans htotal l
    exact hp.imp (fun h => by simpa using h)
  · exact List.mergeSort_perm l _
  · intro a b htie hsub
    exact List.pair_sublist_mergeSort htrans htotal (by simp [htie]) hsub

/-- Witness for the amended claim C3 at a concrete tie. -/
theorem ranker_sorted_desc_stable_witness :
    [(⟨"b/b", 5⟩ : RepoScraped), ⟨"a/a", 5⟩].Sublist
      (sortReposByStars [⟨"b/b", 5⟩, ⟨"a/a", 5⟩]) :=
  (ranker_sorted_desc_stable [⟨"b/b", 5⟩, ⟨"a/a", 5⟩]).2.2 _ _ rfl (List.Sublist.refl _)

/-- Helper: get_repo_scraped returns the handling of the first non-429
response, having slept 60 seconds per rate-limited attempt before it. -/
theorem get_repo_scraped_first_non429 (resp : Nat → FetchOutcome) (full_name : String) :
    ∀ m j fuel, m < fuel →
      (∀ k, k < m → resp (j + k) = .httpError 429) →
      resp (j + m) ≠ .httpError 429 →
      get_repo_scraped resp full_name fuel j =
        some (handle_response full_name (resp (j + m)), 60 * m) := by
  intro m
  induction m with
  | zero =>
    intro j fuel hf h429 hstop
    cases fuel with
    | zero => omega
    | succ f =>
      rw [get_repo_scraped, if_neg (by simpa using hstop)]
      simp
  | succ m ih =>
    intro j fuel hf h429 hstop
    cases fuel with
    | zero => omega
    | succ f =>
      have h0 : resp j = .httpError 429 := by simpa using h429 0 (Nat.succ_pos m)
      rw [get_repo_scraped, if_pos h0]
      have hrec := ih (j + 1) f (by omega)
        (fun k hk => by
          have h := h429 (k + 1) (by omega)
          have e : j + (k + 1) = j + 1 + k := by omega
          rwa [e] at h)
        (by
          have e : j + (m + 1) = j + 1 + m := by omega
          rwa [e] at hstop)
      rw [hrec]
      have e : j + 1 + m = j + (m + 1) := by omega
      rw [e]
      simp only [Option.map_some']
      refine congrArg some (congrArg _ ?_)
      omega

/-- Claim C5: a 429 response makes the Fetcher sleep a fixed 60 seconds and
retry the same request, with no retry-count cap: however many leading
attempts are rate-limited, the outcome is the handling of the first
non-rate-limited response, with 60 seconds slept per rate-limited attempt,
so a rate-limit signal never surfaces as the outcome. -/
theorem rate_limited_retries_with_backoff (resp : Nat → FetchOutcome)
    (full_name : String) (m fuel : Nat)
    (h429 : ∀ k, k < m → resp k = .httpError 429)
    (hstop : resp m ≠ .httpError 429)
    (hfuel : m < fuel) :
    get_repo_scraped resp full_name fuel 0 =
      some (handle_response full_name (resp m), 60 * m) := by
  have h := get_repo_scraped_first_non429 resp full_name m 0 fuel hfuel
    (fun k hk => by simpa using h429 k hk)
    (by simpa using hstop)
  simpa using h

/-- Witness for claim C5: two rate-limited attempts, then success with 7
stars, reached after 120 seconds of backoff. -/
theorem rate_limited_retries_with_backoff_witness :
    get_repo_scraped respTwice429 "x/y" 3 0 = some (.ok ⟨"x/y", 7⟩, 120) := by
  have h := rate_limited_retries_with_backoff respTwice429 "x/y" 2 3
    (by decide) (by decide) (by omega)
  simpa [respTwice429, handle_response] using h

/-- Helper: a successful scrape result carries the requested full name. -/
theorem get_repo_scraped_ok_name (resp : Nat → FetchOutcome) (n : String) :
    ∀ fuel attempt r t,
      get_repo_scraped resp n fuel attempt = some (.ok r, t) → r.full_name = n := by
  intro fuel
  induction fuel with
  | zero => intro attempt r t h; simp [get_repo_scraped] at h
  | succ f ih =>
    intro attempt r t h
    rw [get_repo_scraped] at h
    by_cases h429 : resp attempt = .httpError 429
    · rw [if_pos h429] at h
      cases hrec : get_repo_scraped resp n f (attempt + 1) with
      | none => rw [hrec] at h; simp at h
      | some p =>
        obtain ⟨res, slept⟩ := p
        rw [hrec] at h
        simp only [Option.map_some', Option.some.injEq, Prod.mk.injEq] at h
        obtain ⟨h1, _⟩ := h
        rw [h1] at hrec
        exact ih (attempt + 1) r slept hrec
    · rw [if_neg h429] at h
      cases ho : resp attempt with
      | ok s =>
        rw [ho] at h
        simp only [handle_response, Option.some.injEq, Prod.mk.injEq, Except.ok.injEq] at h
        obtain ⟨h1, _⟩ := h
        rw [← h1]
      | httpError st => rw [ho] at h; simp [handle_response] at h
      | parseError => rw [ho] at h; simp [handle_response] at h
      | netError => rw [ho] at h; simp [handle_response] at h

/-- Helper: every entry of a completed harvest comes from one of the
requested full names. -/
theorem get_repos_scraped_mem_names (resp : String → Nat → FetchOutcome) (fuel : Nat) :
    ∀ names rs, get_repos_scraped resp fuel names = some (.ok rs) →
      ∀ r ∈ rs, r.full_name ∈ names := by
  intro names
  induction names with
  | nil =>
    intro rs h r hr
    rw [get_repos_scraped] at h
    simp only [Option.some.injEq, Except.ok.injEq] at h
    subst h
    simp at hr
  | cons n rest ih =>
    intro rs h r hr
    rw [get_repos_scraped] at h
    cases h1 : get_repo_scraped (resp n) n fuel 0 with
    | none => rw [h1] at h; simp at h
    | some p =>
      obtain ⟨res, slept⟩ := p
      rw [h1] at h
      cases res with
      | ok r1 =>
        cases h2 : get_repos_scraped resp fuel rest with
        | none => rw [h2] at h; simp at h
        | some res2 =>
          rw [h2] at h
          cases res2 with
          | ok rs2 =>
            simp only [Option.some.injEq, Except.ok.injEq] at h
            subst h
            rcases List.mem_cons.mp hr with hre | hre
            · have hn : r1.full_name = n :=
                get_repo_scraped_ok_name (resp n) n fuel 0 r1 slept h1
              rw [hre, hn]
              exact List.mem_cons_self n rest
            · exact List.mem_cons_of_mem n (ih rs2 h2 r hre)
          | error e => simp at h
      | error e =>
        by_cases he : e = FetchError.http 404
        · subst he
          simp at h
          exact List.mem_cons_of_mem n (ih rs h r hr)
        · simp [he] at h

/-- Claim C1 counterexample: with a not-found response for x/y the harvest
completes without error but returns no entry at all for that identifier,
instead of a zero-metric entry ranked at the bottom. -/
theorem notfound_skip_counterexample :
    get_repos_scraped respNotFound 1 ["x/y"] = some (.ok []) ∧
    get_repos_scraped respNotFound 1 ["x/y"] ≠ some (.ok [⟨"x/y", 0⟩]) := by
  constructor
  · rfl
  · intro h
    rw [show get_repos_scraped respNotFound 1 ["x/y"] = some (.ok []) from rfl] at h
    simp at h

/-- Claim C1 (amended): a not-found response raises no error and the harvest
completes over the remaining identifiers, but the identifier is skipped
entirely: the loop catches the 404 and continues, so no result for it
appears in the final ranking. -/
theorem notfound_entry_skipped (resp : String → Nat → FetchOutcome) (fuel t : Nat)
    (n : String) (rest : List String)
    (h404 : get_repo_scraped (resp n) n fuel 0 = some (.error (.http 404), t))
    (hnd : n ∉ rest) :
    get_repos_scraped resp fuel (n :: rest) = get_repos_scraped resp fuel rest ∧
    ∀ rs, get_repos_scraped resp fuel (n :: rest) = some (.ok rs) →
      ∀ r ∈ rs, r.full_name ≠ n := by
  have hskip : get_repos_scraped resp fuel (n :: rest) = get_repos_scraped resp fuel rest := by
    rw [get_repos_scraped, h404]
    simp
  refine ⟨hskip, fun rs h r hr hname => ?_⟩
  rw [hskip] at h
  exact hnd (hname ▸ get_repos_scraped_mem_names resp fuel rest rs h r hr)

/-- Witness for the amended claim C1 at a concrete 404 followed by a
successful fetch. -/
theorem notfound_entry_skipped_witness :
    get_repos_scraped respMix 1 ["x/y", "a/b"] = get_repos_scraped respMix 1 ["a/b"] :=
  (notfound_entry_skipped respMix 1 0 "x/y" ["a/b"] rfl (by decide)).1

/-- Claim C2 counterexample: two identifiers enter the harvest, it neither
aborts nor returns a result for x/y, whose 404 is silently skipped: one
FetchResult comes out for two identifiers. -/
theorem harvest_drop_counterexample :
    get_repos_scraped respMix 1 ["a/b", "x/y"] = some (.ok [⟨"a/b", 5⟩]) := rfl

/-- Claim C2 (amended): when the harvest completes, its results are exactly
one per submitted identifier, in order, except the identifiers whose fetch
ended in a 404, which yield no result at all; any other fetch error aborts
the harvest instead. -/
theorem harvest_exactly_one_except_notfound (resp : String → Nat → FetchOutcome) (fuel : Nat) :
    ∀ names rs, get_repos_scraped resp fuel names = some (.ok rs) →
      rs.map RepoScraped.full_name = names.filter (fun n => ! skipsNotFound resp fuel n) := by
  intro names
  induction names with
  | nil =>
    intro rs h
    rw [get_repos_scraped] at h
    simp only [Option.some.injEq, Except.ok.injEq] at h
    subst h
    simp
  | cons n rest ih =>
    intro rs h
    rw [get_repos_scraped] at h
    cases h1 : get_repo_scraped (resp n) n fuel 0 with
    | none => rw [h1] at h; simp at h
    | some p =>
      obtain ⟨res, slept⟩ := p
      rw [h1] at h
      cases res with
      | ok r1 =>
        have hskip : skipsNotFound resp fuel n = false := by
          unfold skipsNotFound
          rw [h1]
        cases h2 : get_repos_scraped resp fuel rest with
        | none => rw [h2] at h; simp at h
        | some res2 =>
          rw [h2] at h
          cases res2 with
          | ok rs2 =>
            simp only [Option.some.injEq, Except.ok.injEq] at h
            subst h
            have hn : r1.full_name = n :=
              get_repo_scraped_ok_name (resp n) n fuel 0 r1 slept h1
            rw [List.map_cons, List.filter_cons_of_pos (by simp [hskip]), ih rs2 h2, hn]
          | error e => simp at h
      | error e =>
        by_cases he : e = FetchError.http 404
        · subst he
          have hskip : skipsNotFound resp fuel n = true := by
            unfold skipsNotFound
            rw [h1]
            rfl
          simp at h
          rw [List.filter_cons_of_neg (by simp [hskip]), ih rs h]
        · simp [he] at h

/-- Witness for the amended claim C2: one successful identifier, one
not-found identifier, one result. -/
theorem harvest_exactly_one_except_notfound_witness :
    ([⟨"a/b", 5⟩] : List RepoScraped).map RepoScraped.full_name =
      ["a/b", "x/y"].filter (fun n => ! skipsNotFound respMix 1 n) :=
  harvest_exactly_one_except_notfound respMix 1 ["a/b", "x/y"] [⟨"a/b", 5⟩] rfl

/-- Claim C8: a fetch failure other than not-found and rate-limit (an
unexpected HTTP status, a parse failure, a network error) is propagated
untouched as a fatal error and aborts the whole harvest, after any prefix of
successful fetches and regardless of the identifiers still pending. -/
theorem other_failure_aborts_harvest (resp : String → Nat → FetchOutcome) (fuel : Nat)
    (e : FetchError) (n : String) :
    ∀ (pre rest : List String) (t : Nat),
      (∀ m ∈ pre, ∃ r u, get_repo_scraped (resp m) m fuel 0 = some (.ok r, u)) →
      get_repo_scraped (resp n) n fuel 0 = some (.error e, t) →
      e ≠ .http 404 →
      get_repos_scraped resp fuel (pre ++ n :: rest) = some (.error e) := by
  intro pre
  induction pre with
  | nil =>
    intro rest t _ herr h404
    rw [List.nil_append, get_repos_scraped, herr]
    simp [h404]
  | cons m pre ih =>
    intro rest t hpre herr h404
    obtain ⟨r, u, hm⟩ := hpre m (List.mem_cons_self m pre)
    rw [List.cons_append, get_repos_scraped, hm,
      ih rest t (fun x hx => hpre x (List.mem_cons_of_mem m hx)) herr h404]

/-- Witness for claim C8: after one successful fetch, a 500 on x/y aborts
the harvest with that error, dropping the identifier still pending. -/
theorem other_failure_aborts_harvest_witness :
    get_repos_scraped resp500 1 ["a/b", "x/y", "c/d"] = some (.error (.http 500)) := by
  have h := other_failure_aborts_harvest resp500 1 (.http 500) "x/y"
    ["a/b"] ["c/d"] 0
    (fun m hm => by
      have hm' : m = "a/b" := by simpa using hm
      subst hm'
      exact ⟨⟨"a/b", 3⟩, 0, rfl⟩)
    rfl
    (by decide)
  simpa using h

/-- Claim C6: in the fan-out variant a per-request timeout folds into a
zero-star result for that identifier; when no task fails fatally the gather
returns one result per identifier and the timed-out identifier appears with
zero stars, so the harvest continues over the remaining identifiers. -/
theorem timeout_zero_result_harvest_continues (oracle : String → AsyncOutcome) :
    ∀ names : List String,
      (∀ m ∈ names, ∃ r, get_repo_async m (oracle m) = .ok r) →
      ∃ rs, get_repos_async oracle names = .ok rs ∧ rs.length = names.length ∧
        ∀ n ∈ names, oracle n = .timeout → (⟨n, 0⟩ : RepoScraped) ∈ rs := by
  intro names
  induction names with
  | nil => intro _; exact ⟨[], rfl, rfl, by simp⟩
  | cons n0 rest ih =>
    intro hok
    obtain ⟨r, hr⟩ := hok n0 (List.mem_cons_self n0 rest)
    obtain ⟨rs, hrs, hlen, hmem⟩ := ih (fun m hm => hok m (List.mem_cons_of_mem n0 hm))
    refine ⟨r :: rs, ?_, by simp [hlen], ?_⟩
    · rw [get_repos_async, hr, hrs]
    · intro n hn ht
      rcases List.mem_cons.mp hn with hne | hne
      · subst hne
        rw [ht] at hr
        have h2 : (Except.ok (⟨n, 0⟩ : RepoScraped) : Except AsyncError RepoScraped) =
            Except.ok r := hr
        have hr0 : r = (⟨n, 0⟩ : RepoScraped) := by simpa using h2.symm
        rw [hr0]
        exact List.mem_cons_self _ _
      · exact List.mem_cons_of_mem r (hmem n hne ht)

/-- Witness for claim C6: one task times out, the other succeeds; both
identifiers are in the output and the timed-out one has zero stars. -/
theorem timeout_zero_result_harvest_continues_witness :
    ∃ rs, get_repos_async asyncOracle1 ["a/b", "x/y"] = .ok rs ∧
      rs.length = (["a/b", "x/y"] : List String).length ∧
      ∀ n ∈ (["a/b", "x/y"] : List String), asyncOracle1 n = .timeout →
        (⟨n, 0⟩ : RepoScraped) ∈ rs := by
  refine timeout_zero_result_harvest_continues asyncOracle1 ["a/b", "x/y"] ?_
  intro m hm
  rcases List.mem_cons.mp hm with h | h
  · subst h; exact ⟨⟨"a/b", 4⟩, rfl⟩
  · have hm' : m = "x/y" := by simpa using h
    subst hm'
    exact ⟨⟨"x/y", 0⟩, rfl⟩

/-- Claim C9 counterexample: when the source repository itself answers 404
(and likewise when its README does) the harvest ends with a fatal error, yet
main catches it, prints an apology and the process exits with code 0, not a
non-zero code. -/
theorem source_notfound_exit_zero :
    get_sorted_awesome_list_repos w404 "user/repo" none 1 =
      some (.error (.repoNotFound "user/repo")) ∧
    main_model w404 "user/repo" 10 none 1 = some ⟨0, []⟩ ∧
    main_model wReadme404 "user/repo" 10 none 1 = some ⟨0, []⟩ :=
  ⟨rfl, rfl, rfl⟩

/-- Claim C9 (amended): the exit code is 0 exactly when the run succeeds or
ends in one of the two caught errors (source repository not found, README
not found); every other fatal error escapes main and the interpreter exits
with code 1. -/
theorem main_exit_code_by_error_class (w : SorterWorld) (repo : String) (count : Nat)
    (process_count : Option Nat) (fuel : Nat) (res : Except SorterError (List RepoScraped))
    (h : get_sorted_awesome_list_repos w repo process_count fuel = some res) :
    (main_model w repo count process_count fuel).map MainOutput.exit_code =
      some (if caughtOrOk res then 0 else 1) := by
  unfold main_model
  rw [h]
  rcases res with e | rs
  · cases e <;> rfl
  · rfl

/-- Witness for the amended claim C9: a fatal scrape error escapes main and
the exit code is 1. -/
theorem main_exit_code_by_error_class_witness :
    (main_model wFatal "user/repo" 10 none 1).map MainOutput.exit_code = some 1 := by
  have h := main_exit_code_by_error_class wFatal "user/repo" 10 none 1
    (.error (.fetchFatal (.http 500))) rfl
  simpa using h
